import Mathlib

/-!
Shallow embedding of the `prerollvalve` GStreamer element
(`src/prerollvalve.rs`): a valve that buffers timestamped frames while
closed, prunes the backlog to a time window, and on open flushes from the
first keyframe before passing frames through.

Timestamps are nanosecond values (`gst::ClockTime`) modelled as `Nat`;
`max_history` is milliseconds, converted via `ClockTime::from_mseconds`.
The downstream pad (`srcpad.push`) is modelled as an oracle
`Downstream : Frame → Option FlowError` (`none` = push succeeded).
-/

inductive FlowError where
  | flushing
  | eos
  | notNegotiated
  | err
deriving DecidableEq, Repr

inductive FlowSuccess where
  | ok
deriving DecidableEq, Repr

/-- A `gst::Buffer` as far as the valve inspects it: presentation and
decode timestamps, the DELTA_UNIT flag, and an opaque payload identity. -/
structure Frame where
  pts : Option Nat
  dts : Option Nat
  deltaUnit : Bool
  payload : Nat
deriving DecidableEq, Repr

/-- Stored entry (`StoredBuffer` in the source): buffer plus derived timestamp and
keyframe classification. -/
structure StoredBuffer where
  buffer : Frame
  timestamp : Nat
  is_keyframe : Bool
deriving DecidableEq, Repr

/-- Backlog state (`State`): the queue (a `VecDeque`, head = oldest). -/
structure State where
  queue : List StoredBuffer
deriving DecidableEq, Repr

/-- Settings: the three properties. `max_history` is in milliseconds. -/
structure Settings where
  «open» : Bool
  max_history : Nat
  debug : Bool
deriving DecidableEq, Repr

/-- Property defaults (`DEFAULT_OPEN`, `DEFAULT_MAX_HISTORY`, `DEFAULT_DEBUG`). -/
def Settings.default : Settings :=
  { «open» := false, max_history := 5000, debug := false }

/-- Log records emitted by `sink_chain`, kept for observability claims. -/
inductive LogEvent where
  | traceReceived (pts dts : Option Nat)
  | infoDump (n : Nat)
  | warnNoKeyframe
  | infoStartDump (idx : Nat)
  | tracePush (pts : Option Nat)
  | errorPush (e : FlowError)
deriving DecidableEq, Repr

/-- The downstream pad: `srcpad.push`. `none` means `Ok(FlowSuccess)`. -/
def Downstream : Type := Frame → Option FlowError

/-- Conversion `gst::ClockTime::from_mseconds`: milliseconds to nanoseconds. -/
def msToNs (ms : Nat) : Nat := ms * 1000000

/-- Derived timestamp: `buffer.pts().or_else(|| buffer.dts()).unwrap_or(ZERO)`. -/
def frameTs (f : Frame) : Nat := (f.pts.orElse (fun _ => f.dts)).getD 0

/-- The keyframe scan: first index `i` with `is_keyframe`, scanning from
the head (oldest) of the queue. -/
def findFirstKeyframe : List StoredBuffer → Option Nat
  | [] => none
  | sb :: rest =>
    if sb.is_keyframe then some 0 else (findFirstKeyframe rest).map (· + 1)

/-- The pruning loop: while the head entry satisfies
`current > head.timestamp && current - head.timestamp > maxHistory`,
pop it; stop at the first head that does not. -/
def prune (maxHistory current : Nat) : List StoredBuffer → List StoredBuffer
  | [] => []
  | front :: rest =>
    if current > front.timestamp ∧ current - front.timestamp > maxHistory then
      prune maxHistory current rest
    else
      front :: rest

/-- Outcome of the dump loop over a suffix of the queue. -/
structure DumpResult where
  err : Option FlowError
  pushed : List Frame
  logs : List LogEvent
deriving Repr

/-- The dump loop body (`for i in idx..len`): push each stored buffer
downstream; on the first failure stop and report the error. -/
def dumpLoop (down : Downstream) (debug : Bool) : List StoredBuffer → DumpResult
  | [] => { err := none, pushed := [], logs := [] }
  | sb :: rest =>
    let lg := if debug then [LogEvent.tracePush sb.buffer.pts] else []
    match down sb.buffer with
    | some e =>
      { err := some e, pushed := [sb.buffer], logs := lg ++ [LogEvent.errorPush e] }
    | none =>
      let r := dumpLoop down debug rest
      { err := r.err, pushed := sb.buffer :: r.pushed, logs := lg ++ r.logs }

/-- Full outcome of one `sink_chain` call. -/
structure ChainResult where
  result : Except FlowError FlowSuccess
  state : State
  pushed : List Frame
  logs : List LogEvent
deriving Repr

/-- Building a `StoredBuffer` in the closed branch: keyframe iff the
DELTA_UNIT flag is absent, timestamp from pts, else dts, else zero. -/
def mkStored (f : Frame) : StoredBuffer :=
  { buffer := f, timestamp := frameTs f, is_keyframe := !f.deltaUnit }

/-- Frame intake `sink_chain`: the chain function, translated branch by branch from
the source. `pushed` records every buffer handed to `srcpad.push`, in
order, the live buffer included. -/
def sink_chain (down : Downstream) (settings : Settings) (state : State)
    (buffer : Frame) : ChainResult :=
  let logs0 :=
    if settings.debug then [LogEvent.traceReceived buffer.pts buffer.dts] else []
  if settings.«open» then
    if state.queue.isEmpty then
      -- queue empty: forward the live buffer only
      match down buffer with
      | some e => { result := Except.error e, state := state,
                    pushed := [buffer], logs := logs0 }
      | none => { result := Except.ok FlowSuccess.ok, state := state,
                  pushed := [buffer], logs := logs0 }
    else
      -- transition closed -> open: dump the backlog first
      let logs1 := logs0 ++ [LogEvent.infoDump state.queue.length]
      let idxLogs : Nat × List LogEvent :=
        match findFirstKeyframe state.queue with
        | some i => (i, logs1)
        | none => (0, logs1 ++ [LogEvent.warnNoKeyframe])
      let idx := idxLogs.1
      let logs2 := idxLogs.2 ++ [LogEvent.infoStartDump idx]
      let d := dumpLoop down settings.debug (state.queue.drop idx)
      match d.err with
      | some e =>
        -- a stored push failed: clear the queue and propagate the error
        { result := Except.error e, state := { queue := [] },
          pushed := d.pushed, logs := logs2 ++ d.logs }
      | none =>
        -- dump done, queue cleared, forward the live buffer
        match down buffer with
        | some e => { result := Except.error e, state := { queue := [] },
                      pushed := d.pushed ++ [buffer], logs := logs2 ++ d.logs }
        | none => { result := Except.ok FlowSuccess.ok, state := { queue := [] },
                    pushed := d.pushed ++ [buffer], logs := logs2 ++ d.logs }
  else
    -- valve closed: store the buffer, then prune old entries
    let stored := mkStored buffer
    let q1 := state.queue ++ [stored]
    let q2 := prune (msToNs settings.max_history) (frameTs buffer) q1
    { result := Except.ok FlowSuccess.ok, state := { queue := q2 },
      pushed := [], logs := logs0 }

/-- Sequential frame arrivals under fixed settings (state threading). -/
def run_frames (down : Downstream) (settings : Settings) (st : State) :
    List Frame → State
  | [] => st
  | f :: fs => run_frames down settings (sink_chain down settings st f).state fs

/-- A `glib::Value` as the property system uses it here. -/
inductive GValue where
  | b (v : Bool)
  | u64 (v : Nat)
deriving DecidableEq, Repr

/-- Setter `set_property`: stringly-typed dispatch; `none` models the
`unimplemented!()` / type-mismatch panic. -/
def set_property (s : Settings) (name : String) (value : GValue) :
    Option Settings :=
  match name, value with
  | "open", GValue.b v => some { s with «open» := v }
  | "max-history", GValue.u64 v => some { s with max_history := v }
  | "debug", GValue.b v => some { s with debug := v }
  | _, _ => none

/-- Getter `property`: `none` models `unimplemented!()`. -/
def property (s : Settings) (name : String) : Option GValue :=
  match name with
  | "open" => some (GValue.b s.«open»)
  | "max-history" => some (GValue.u64 s.max_history)
  | "debug" => some (GValue.b s.debug)
  | _ => none

/-- A `gst::Event`, opaque to the valve. -/
structure Event where
  id : Nat
deriving DecidableEq, Repr

/-- Event intake `sink_event`: every event is forwarded to the src pad unconditionally. -/
def sink_event (pushEvent : Event → Bool) (event : Event) : Bool :=
  pushEvent event

/-- The whole element instance: both pieces of guarded state. -/
structure PrerollValve where
  settings : Settings
  state : State
deriving DecidableEq, Repr

structure ValveChainResult where
  result : Except FlowError FlowSuccess
  valve : PrerollValve
  pushed : List Frame
  logs : List LogEvent
deriving Repr

/-- Instance-level `sink_chain`: it locks `settings` read-only and
writes only `state`. -/
def valve_sink_chain (down : Downstream) (v : PrerollValve) (buffer : Frame) :
    ValveChainResult :=
  let r := sink_chain down v.settings v.state buffer
  { result := r.result, valve := { settings := v.settings, state := r.state },
    pushed := r.pushed, logs := r.logs }

/-- Instance-level `sink_event`: it touches neither lock. -/
def valve_sink_event (pushEvent : Event → Bool) (v : PrerollValve)
    (event : Event) : Bool × PrerollValve :=
  (sink_event pushEvent event, v)

/-! ### Helper lemmas -/

theorem queue_isEmpty_false {q : List StoredBuffer} (h : q ≠ []) :
    q.isEmpty = false := by
  cases q with
  | nil => exact absurd rfl h
  | cons a l => rfl

theorem dumpLoop_ok (down : Downstream) (dbg : Bool) :
    ∀ q : List StoredBuffer, (∀ x ∈ q, down x.buffer = none) →
      (dumpLoop down dbg q).err = none ∧
        (dumpLoop down dbg q).pushed = q.map (fun x => x.buffer) := by
  intro q
  induction q with
  | nil => intro _; exact ⟨rfl, rfl⟩
  | cons sb rest ih =>
    intro h
    have hsb : down sb.buffer = none := h sb (List.mem_cons_self sb rest)
    have hrest := ih (fun x hx => h x (List.mem_cons_of_mem sb hx))
    simp only [dumpLoop, hsb, List.map_cons]
    exact ⟨hrest.1, by rw [hrest.2]⟩

theorem dumpLoop_fail (down : Downstream) (dbg : Bool) (e : FlowError) :
    ∀ (q : List StoredBuffer) (j : Nat) (hj : j < q.length),
      down (q.get ⟨j, hj⟩).buffer = some e →
      (∀ i (hi : i < j), down (q.get ⟨i, Nat.lt_trans hi hj⟩).buffer = none) →
      (dumpLoop down dbg q).err = some e ∧
        (dumpLoop down dbg q).pushed = (q.take (j + 1)).map (fun x => x.buffer) := by
  intro q
  induction q with
  | nil => intro j hj; exact absurd hj (Nat.not_lt_zero j)
  | cons sb rest ih =>
    intro j hj hfail hpre
    cases j with
    | zero =>
      simp only [List.get] at hfail
      refine ⟨?_, ?_⟩ <;> simp [dumpLoop, hfail]
    | succ j' =>
      have h0 : down sb.buffer = none := by
        have := hpre 0 (Nat.succ_pos j')
        simpa using this
      have hj' : j' < rest.length := Nat.lt_of_succ_lt_succ hj
      have hfail' : down (rest.get ⟨j', hj'⟩).buffer = some e := hfail
      have hpre' : ∀ i (hi : i < j'),
          down (rest.get ⟨i, Nat.lt_trans hi hj'⟩).buffer = none := by
        intro i hi
        exact hpre (i + 1) (Nat.succ_lt_succ hi)
      have hrest := ih j' hj' hfail' hpre'
      simp only [dumpLoop, h0, List.take, List.map_cons]
      exact ⟨hrest.1, by rw [hrest.2]⟩

theorem dumpLoop_debug_indep (down : Downstream) :
    ∀ q : List StoredBuffer,
      (dumpLoop down true q).err = (dumpLoop down false q).err ∧
        (dumpLoop down true q).pushed = (dumpLoop down false q).pushed := by
  intro q
  induction q with
  | nil => exact ⟨rfl, rfl⟩
  | cons sb rest ih =>
    simp only [dumpLoop]
    cases down sb.buffer with
    | some e => exact ⟨rfl, rfl⟩
    | none => exact ⟨ih.1, by simp [ih.2]⟩

theorem findFirstKeyframe_some :
    ∀ (q : List StoredBuffer) (k : Nat), findFirstKeyframe q = some k →
      ∃ hk : k < q.length, (q.get ⟨k, hk⟩).is_keyframe = true ∧
        ∀ j (hj : j < q.length), (q.get ⟨j, hj⟩).is_keyframe = true → k ≤ j := by
  intro q
  induction q with
  | nil => intro k h; simp [findFirstKeyframe] at h
  | cons sb rest ih =>
    intro k h
    cases hkf : sb.is_keyframe with
    | true =>
      rw [findFirstKeyframe, hkf] at h
      simp only [if_true] at h
      cases h
      exact ⟨Nat.succ_pos _, by simpa using hkf, fun j hj _ => Nat.zero_le j⟩
    | false =>
      rw [findFirstKeyframe, hkf] at h
      simp only [Bool.false_eq_true, if_false, Option.map_eq_some'] at h
      obtain ⟨k', hk', rfl⟩ := h
      obtain ⟨hlt, hget, hmin⟩ := ih k' hk'
      refine ⟨Nat.succ_lt_succ hlt, hget, ?_⟩
      intro j hj hkj
      cases j with
      | zero =>
        exfalso
        have : sb.is_keyframe = true := by simpa using hkj
        rw [hkf] at this
        exact Bool.false_ne_true this
      | succ j' =>
        exact Nat.succ_le_succ (hmin j' (Nat.lt_of_succ_lt_succ hj) hkj)

theorem findFirstKeyframe_none :
    ∀ q : List StoredBuffer, findFirstKeyframe q = none →
      ∀ x ∈ q, x.is_keyframe = false := by
  intro q
  induction q with
  | nil => intro _ x hx; exact absurd hx (List.not_mem_nil x)
  | cons sb rest ih =>
    intro h x hx
    cases hb : sb.is_keyframe with
    | true => rw [findFirstKeyframe, hb] at h; simp at h
    | false =>
      rw [findFirstKeyframe, hb] at h
      simp only [Bool.false_eq_true, if_false, Option.map_eq_none'] at h
      rcases List.mem_cons.mp hx with rfl | hx'
      · exact hb
      · exact ih h x hx'

/-- Ordering of stored buffers by derived timestamp. -/
def tsLE (a b : StoredBuffer) : Prop := a.timestamp ≤ b.timestamp

theorem prune_suffix (m c : Nat) :
    ∀ q : List StoredBuffer, List.IsSuffix (prune m c q) q := by
  intro q
  induction q with
  | nil => exact List.suffix_refl []
  | cons front rest ih =>
    rw [prune]
    split
    · exact ih.trans (List.suffix_cons front rest)
    · exact List.suffix_refl _

theorem prune_mem {m c : Nat} {q : List StoredBuffer} {E : StoredBuffer}
    (h : E ∈ prune m c q) : E ∈ q :=
  (prune_suffix m c q).subset h

theorem prune_pairwise {m c : Nat} {q : List StoredBuffer}
    (h : List.Pairwise tsLE q) : List.Pairwise tsLE (prune m c q) :=
  h.sublist (prune_suffix m c q).sublist

theorem prune_bound (m c : Nat) :
    ∀ q : List StoredBuffer, List.Pairwise tsLE q →
      ∀ E ∈ prune m c q, c - E.timestamp ≤ m := by
  intro q
  induction q with
  | nil => intro _ E hE; simp [prune] at hE
  | cons front rest ih =>
    intro hp E hE
    rw [prune] at hE
    rcases List.pairwise_cons.mp hp with ⟨hhead, hrest⟩
    by_cases hc : c > front.timestamp ∧ c - front.timestamp > m
    · rw [if_pos hc] at hE
      exact ih hrest E hE
    · rw [if_neg hc] at hE
      have hfront : c - front.timestamp ≤ m := by omega
      rcases List.mem_cons.mp hE with rfl | hE'
      · exact hfront
      · have : front.timestamp ≤ E.timestamp := hhead E hE'
        omega

theorem sink_chain_closed (down : Downstream) (s : Settings) (st : State)
    (f : Frame) (h : s.«open» = false) :
    (sink_chain down s st f).result = Except.ok FlowSuccess.ok ∧
      (sink_chain down s st f).state.queue
        = prune (msToNs s.max_history) (frameTs f) (st.queue ++ [mkStored f]) ∧
      (sink_chain down s st f).pushed = [] := by
  refine ⟨?_, ?_, ?_⟩ <;> simp [sink_chain, h]

theorem sink_chain_open_queue_nil (down : Downstream) (s : Settings)
    (st : State) (f : Frame) (h : s.«open» = true) :
    (sink_chain down s st f).state.queue = [] := by
  by_cases hq : st.queue = []
  · cases hd : down f <;> simp [sink_chain, h, hq, hd]
  · simp only [sink_chain, h, queue_isEmpty_false hq, if_true, Bool.false_eq_true,
      if_false]
    split <;> (try split) <;> simp

theorem run_open_queue_nil (down : Downstream) (s : Settings)
    (h : s.«open» = true) :
    ∀ (fs : List Frame) (st : State), fs ≠ [] →
      (run_frames down s st fs).queue = [] := by
  intro fs
  induction fs with
  | nil => intro st hne; exact absurd rfl hne
  | cons f fs ih =>
    intro st _
    rw [run_frames]
    cases fs with
    | nil => rw [run_frames]; exact sink_chain_open_queue_nil down s st f h
    | cons g gs => exact ih _ (List.cons_ne_nil g gs)

/-! ### Claim theorems -/

/-- C3: every `sink_chain` call that observes `open = true` returns with an
empty backlog, and the backlog stays empty across any nonempty sequence of
arrivals during which `open` remains true. -/
theorem backlog_empty_while_open (down : Downstream) (s : Settings) (st : State)
    (f : Frame) (h : s.«open» = true) :
    (sink_chain down s st f).state.queue = [] ∧
      ∀ fs : List Frame, fs ≠ [] → (run_frames down s st fs).queue = [] :=
  ⟨sink_chain_open_queue_nil down s st f h,
    fun fs hne => run_open_queue_nil down s h fs st hne⟩

theorem backlog_empty_while_open_witness :
    (⟨true, 5000, false⟩ : Settings).«open» = true ∧
      ((sink_chain (fun _ => none) ⟨true, 5000, false⟩
          ⟨[⟨⟨some 1, none, false, 0⟩, 1, true⟩]⟩ ⟨some 2, none, true, 1⟩).state.queue
          = [] ∧
        ∀ fs : List Frame, fs ≠ [] →
          (run_frames (fun _ => none) ⟨true, 5000, false⟩
            ⟨[⟨⟨some 1, none, false, 0⟩, 1, true⟩]⟩ fs).queue = []) :=
  ⟨rfl, backlog_empty_while_open (fun _ => none) ⟨true, 5000, false⟩
    ⟨[⟨⟨some 1, none, false, 0⟩, 1, true⟩]⟩ ⟨some 2, none, true, 1⟩ rfl⟩

theorem prune_keeps_ge (m c : Nat) :
    ∀ q : List StoredBuffer, ∀ E ∈ q, c ≤ E.timestamp → E ∈ prune m c q := by
  intro q
  induction q with
  | nil => intro E hE; exact absurd hE (List.not_mem_nil E)
  | cons front rest ih =>
    intro E hE hge
    rw [prune]
    by_cases hc : c > front.timestamp ∧ c - front.timestamp > m
    · rw [if_pos hc]
      rcases List.mem_cons.mp hE with rfl | hE2
      · exact absurd hge (Nat.not_le.mpr hc.1)
      · exact ih E hE2 hge
    · rw [if_neg hc]
      exact hE

/-- C5: after a closed-mode append the new queue is exactly the pruning
loop applied to the old queue plus the appended entry, where the loop pops
the head iff `current > head.timestamp` and
`current - head.timestamp > max_history`, stops at the first head failing
that test, never removes an entry whose timestamp is at least `current`,
and only ever drops a prefix (the result is a suffix: no reordering). -/
theorem prune_step_spec (down : Downstream) (s : Settings) (st : State)
    (f : Frame) (m c : Nat) (e : StoredBuffer) (q : List StoredBuffer)
    (h : s.«open» = false) :
    (sink_chain down s st f).state.queue
        = prune (msToNs s.max_history) (frameTs f) (st.queue ++ [mkStored f]) ∧
      prune m c [] = [] ∧
      (c > e.timestamp ∧ c - e.timestamp > m → prune m c (e :: q) = prune m c q) ∧
      (¬(c > e.timestamp ∧ c - e.timestamp > m) → prune m c (e :: q) = e :: q) ∧
      (e.timestamp ≥ c → prune m c (e :: q) = e :: q) ∧
      (∀ E ∈ q, c ≤ E.timestamp → E ∈ prune m c q) ∧
      List.IsSuffix (prune m c q) q := by
  refine ⟨(sink_chain_closed down s st f h).2.1, rfl, ?_, ?_, ?_,
    prune_keeps_ge m c q, prune_suffix m c q⟩
  · intro hc; rw [prune, if_pos hc]
  · intro hc; rw [prune, if_neg hc]
  · intro hc
    rw [prune, if_neg (by omega : ¬(c > e.timestamp ∧ c - e.timestamp > m))]

theorem prune_step_spec_witness :
    (⟨false, 5, false⟩ : Settings).«open» = false ∧
      ((sink_chain (fun _ => none) ⟨false, 5, false⟩ ⟨[]⟩
          ⟨some 9, none, true, 0⟩).state.queue
        = prune (msToNs 5) (frameTs ⟨some 9, none, true, 0⟩)
            ([] ++ [mkStored ⟨some 9, none, true, 0⟩]) ∧
      prune 5 10 [] = [] ∧
      (10 > (⟨⟨some 3, none, true, 1⟩, 3, false⟩ : StoredBuffer).timestamp ∧
          10 - (⟨⟨some 3, none, true, 1⟩, 3, false⟩ : StoredBuffer).timestamp > 5 →
        prune 5 10
            (⟨⟨some 3, none, true, 1⟩, 3, false⟩
              :: [⟨⟨some 20, none, true, 2⟩, 20, false⟩])
          = prune 5 10 [⟨⟨some 20, none, true, 2⟩, 20, false⟩]) ∧
      (¬(10 > (⟨⟨some 3, none, true, 1⟩, 3, false⟩ : StoredBuffer).timestamp ∧
          10 - (⟨⟨some 3, none, true, 1⟩, 3, false⟩ : StoredBuffer).timestamp > 5) →
        prune 5 10
            (⟨⟨some 3, none, true, 1⟩, 3, false⟩
              :: [⟨⟨some 20, none, true, 2⟩, 20, false⟩])
          = ⟨⟨some 3, none, true, 1⟩, 3, false⟩
              :: [⟨⟨some 20, none, true, 2⟩, 20, false⟩]) ∧
      ((⟨⟨some 3, none, true, 1⟩, 3, false⟩ : StoredBuffer).timestamp ≥ 10 →
        prune 5 10
            (⟨⟨some 3, none, true, 1⟩, 3, false⟩
              :: [⟨⟨some 20, none, true, 2⟩, 20, false⟩])
          = ⟨⟨some 3, none, true, 1⟩, 3, false⟩
              :: [⟨⟨some 20, none, true, 2⟩, 20, false⟩]) ∧
      (∀ E ∈ [⟨⟨some 20, none, true, 2⟩, 20, false⟩],
        10 ≤ E.timestamp →
          E ∈ prune 5 10 [⟨⟨some 20, none, true, 2⟩, 20, false⟩]) ∧
      List.IsSuffix (prune 5 10 [⟨⟨some 20, none, true, 2⟩, 20, false⟩])
        [⟨⟨some 20, none, true, 2⟩, 20, false⟩]) :=
  ⟨rfl, prune_step_spec (fun _ => none) ⟨false, 5, false⟩ ⟨[]⟩
    ⟨some 9, none, true, 0⟩ 5 10 ⟨⟨some 3, none, true, 1⟩, 3, false⟩
    [⟨⟨some 20, none, true, 2⟩, 20, false⟩] rfl⟩

/-- C6: a closed-mode call succeeds, pushes nothing downstream, and appends
exactly one entry at the tail (before the pruning pass), whose timestamp is
pts, else dts, else zero, and whose keyframe flag is the negation of the
DELTA_UNIT flag. -/
theorem closed_mode_buffers_one_entry (down : Downstream) (s : Settings)
    (st : State) (f : Frame) (h : s.«open» = false) :
    (sink_chain down s st f).result = Except.ok FlowSuccess.ok ∧
      (sink_chain down s st f).pushed = [] ∧
      (sink_chain down s st f).state.queue
        = prune (msToNs s.max_history) (frameTs f)
            (st.queue ++ [{ buffer := f, timestamp := frameTs f,
                            is_keyframe := !f.deltaUnit }]) ∧
      frameTs f = f.pts.getD (f.dts.getD 0) := by
  obtain ⟨h1, h2, h3⟩ := sink_chain_closed down s st f h
  refine ⟨h1, h3, h2, ?_⟩
  cases hp : f.pts <;> simp [frameTs, hp, Option.orElse]

theorem closed_mode_buffers_one_entry_witness :
    (⟨false, 5000, false⟩ : Settings).«open» = false ∧
      ((sink_chain (fun _ => none) ⟨false, 5000, false⟩ ⟨[]⟩
          ⟨none, some 7, true, 0⟩).result = Except.ok FlowSuccess.ok ∧
        (sink_chain (fun _ => none) ⟨false, 5000, false⟩ ⟨[]⟩
          ⟨none, some 7, true, 0⟩).pushed = [] ∧
        (sink_chain (fun _ => none) ⟨false, 5000, false⟩ ⟨[]⟩
          ⟨none, some 7, true, 0⟩).state.queue
          = prune (msToNs (5000 : Nat)) (frameTs ⟨none, some 7, true, 0⟩)
              ([] ++ [{ buffer := ⟨none, some 7, true, 0⟩,
                        timestamp := frameTs ⟨none, some 7, true, 0⟩,
                        is_keyframe := !(true : Bool) }]) ∧
        frameTs ⟨none, some 7, true, 0⟩
          = (none : Option Nat).getD ((some 7 : Option Nat).getD 0)) :=
  ⟨rfl, closed_mode_buffers_one_entry (fun _ => none) ⟨false, 5000, false⟩ ⟨[]⟩
    ⟨none, some 7, true, 0⟩ rfl⟩

/-- C7: with the valve open and the backlog empty, `sink_chain` pushes
exactly the live frame downstream and the backlog stays empty. -/
theorem pass_through_open_empty (down : Downstream) (s : Settings) (st : State)
    (f : Frame) (h1 : s.«open» = true) (h2 : st.queue = []) :
    (sink_chain down s st f).pushed = [f] ∧
      (sink_chain down s st f).state.queue = [] := by
  cases hd : down f <;> refine ⟨?_, ?_⟩ <;> simp [sink_chain, h1, h2, hd]

theorem pass_through_open_empty_witness :
    (⟨true, 5000, false⟩ : Settings).«open» = true ∧
      (⟨[]⟩ : State).queue = [] ∧
      ((sink_chain (fun _ => none) ⟨true, 5000, false⟩ ⟨[]⟩
          ⟨some 4, none, false, 9⟩).pushed = [⟨some 4, none, false, 9⟩] ∧
        (sink_chain (fun _ => none) ⟨true, 5000, false⟩ ⟨[]⟩
          ⟨some 4, none, false, 9⟩).state.queue = []) :=
  ⟨rfl, rfl, pass_through_open_empty (fun _ => none) ⟨true, 5000, false⟩ ⟨[]⟩
    ⟨some 4, none, false, 9⟩ rfl rfl⟩

/-- C8: setting any of the three properties and reading it back returns the
value written, whatever the other two settings hold. -/
theorem settings_round_trip (s : Settings) (b d : Bool) (n : Nat) :
    (set_property s "open" (GValue.b b)).bind (fun s2 => property s2 "open")
        = some (GValue.b b) ∧
      (set_property s "max-history" (GValue.u64 n)).bind
          (fun s2 => property s2 "max-history") = some (GValue.u64 n) ∧
      (set_property s "debug" (GValue.b d)).bind (fun s2 => property s2 "debug")
        = some (GValue.b d) :=
  ⟨rfl, rfl, rfl⟩

/-- C10: neither `sink_chain` nor `sink_event` modifies the settings; an
open-triggered flush cannot toggle `open`, and `sink_event` forwards the
event unconditionally. -/
theorem settings_immutable_under_frames (down : Downstream) (v : PrerollValve)
    (f : Frame) (pushEvent : Event → Bool) (ev : Event) :
    (valve_sink_chain down v f).valve.settings = v.settings ∧
      (valve_sink_event pushEvent v ev).2.settings = v.settings ∧
      (valve_sink_event pushEvent v ev).1 = pushEvent ev :=
  ⟨rfl, rfl, rfl⟩

/-- C1: when an open-mode call finds a non-empty backlog and every
downstream push succeeds, it pushes exactly the queued buffers from the
first-keyframe index `k` (0, with a warning, when no keyframe is queued)
through the end, in order, followed by the live frame, and clears the
backlog; `k` is genuinely the first keyframe index. -/
theorem flush_from_first_keyframe (down : Downstream) (s : Settings)
    (st : State) (f : Frame) (hopen : s.«open» = true) (hne : st.queue ≠ [])
    (hok : ∀ x ∈ st.queue, down x.buffer = none) :
    (sink_chain down s st f).pushed
        = (st.queue.drop ((findFirstKeyframe st.queue).getD 0)).map
            (fun x => x.buffer) ++ [f] ∧
      (sink_chain down s st f).state.queue = [] ∧
      (∀ k, findFirstKeyframe st.queue = some k →
        ∃ hk : k < st.queue.length, (st.queue.get ⟨k, hk⟩).is_keyframe = true ∧
          ∀ j (hj : j < st.queue.length),
            (st.queue.get ⟨j, hj⟩).is_keyframe = true → k ≤ j) ∧
      (findFirstKeyframe st.queue = none →
        (∀ x ∈ st.queue, x.is_keyframe = false) ∧
          LogEvent.warnNoKeyframe ∈ (sink_chain down s st f).logs) := by
  refine ⟨?_, sink_chain_open_queue_nil down s st f hopen,
    fun k hk => findFirstKeyframe_some st.queue k hk,
    fun hk => ⟨findFirstKeyframe_none st.queue hk, ?_⟩⟩
  · cases hk : findFirstKeyframe st.queue with
    | some i =>
      obtain ⟨he, hp⟩ := dumpLoop_ok down s.debug (st.queue.drop i)
        (fun x hx => hok x (List.drop_subset _ _ hx))
      cases hd : down f <;>
        simp [sink_chain, hopen, queue_isEmpty_false hne, hk, he, hp, hd]
    | none =>
      obtain ⟨he, hp⟩ := dumpLoop_ok down s.debug (st.queue.drop 0)
        (fun x hx => hok x (List.drop_subset _ _ hx))
      rw [List.drop_zero] at he hp
      cases hd : down f <;>
        simp [sink_chain, hopen, queue_isEmpty_false hne, hk, he, hp, hd]
  · obtain ⟨he, hp⟩ := dumpLoop_ok down s.debug (st.queue.drop 0)
      (fun x hx => hok x (List.drop_subset _ _ hx))
    rw [List.drop_zero] at he hp
    cases hd : down f <;>
      simp [sink_chain, hopen, queue_isEmpty_false hne, hk, he, hp, hd]

/-- Sample backlog for the flush witnesses: keyframe flags F,F,T,F,F. -/
def wQueue : List StoredBuffer :=
  [⟨⟨some 10, none, true, 0⟩, 10, false⟩,
   ⟨⟨some 20, none, true, 1⟩, 20, false⟩,
   ⟨⟨some 30, none, false, 2⟩, 30, true⟩,
   ⟨⟨some 40, none, true, 3⟩, 40, false⟩,
   ⟨⟨some 50, none, true, 4⟩, 50, false⟩]

def wDown : Downstream := fun _ => none

def wLive : Frame := ⟨some 60, none, true, 5⟩

def wOpenSettings : Settings := ⟨true, 5000, false⟩

theorem flush_from_first_keyframe_witness :
    wOpenSettings.«open» = true ∧ wQueue ≠ [] ∧
      (∀ x ∈ wQueue, wDown x.buffer = none) ∧
      ((sink_chain wDown wOpenSettings ⟨wQueue⟩ wLive).pushed
          = (wQueue.drop ((findFirstKeyframe wQueue).getD 0)).map
              (fun x => x.buffer) ++ [wLive] ∧
        (sink_chain wDown wOpenSettings ⟨wQueue⟩ wLive).state.queue = [] ∧
        (∀ k, findFirstKeyframe wQueue = some k →
          ∃ hk : k < wQueue.length, (wQueue.get ⟨k, hk⟩).is_keyframe = true ∧
            ∀ j (hj : j < wQueue.length),
              (wQueue.get ⟨j, hj⟩).is_keyframe = true → k ≤ j) ∧
        (findFirstKeyframe wQueue = none →
          (∀ x ∈ wQueue, x.is_keyframe = false) ∧
            LogEvent.warnNoKeyframe
              ∈ (sink_chain wDown wOpenSettings ⟨wQueue⟩ wLive).logs)) :=
  ⟨rfl, by decide, by decide,
    flush_from_first_keyframe wDown wOpenSettings ⟨wQueue⟩ wLive rfl
      (by decide) (by decide)⟩

/-- C2: if during a flush the downstream push of the queued frame at
offset `j` past the flush start fails (all earlier ones succeeding), the
call returns that same failure, exactly the attempted buffers up to and
including the failing one were handed downstream (so neither later queued
frames nor the live frame), and the backlog is cleared. -/
theorem flush_abort_on_downstream_failure (down : Downstream) (s : Settings)
    (st : State) (f : Frame) (e : FlowError) (j : Nat)
    (hopen : s.«open» = true) (hne : st.queue ≠ [])
    (hj : j < (st.queue.drop ((findFirstKeyframe st.queue).getD 0)).length)
    (hfail : down ((st.queue.drop ((findFirstKeyframe st.queue).getD 0)).get
        ⟨j, hj⟩).buffer = some e)
    (hpre : ∀ i (hi : i < j),
      down ((st.queue.drop ((findFirstKeyframe st.queue).getD 0)).get
        ⟨i, Nat.lt_trans hi hj⟩).buffer = none) :
    (sink_chain down s st f).result = Except.error e ∧
      (sink_chain down s st f).pushed
        = ((st.queue.drop ((findFirstKeyframe st.queue).getD 0)).take (j + 1)).map
            (fun x => x.buffer) ∧
      (sink_chain down s st f).state.queue = [] := by
  have hd := dumpLoop_fail down s.debug e
    (st.queue.drop ((findFirstKeyframe st.queue).getD 0)) j hj hfail hpre
  refine ⟨?_, ?_, sink_chain_open_queue_nil down s st f hopen⟩ <;>
  · cases hk : findFirstKeyframe st.queue with
    | some i =>
      rw [hk] at hd
      simp only [Option.getD_some] at hd
      simp [sink_chain, hopen, queue_isEmpty_false hne, hk, hd.1, hd.2]
    | none =>
      rw [hk] at hd
      simp only [Option.getD_none] at hd
      rw [List.drop_zero] at hd
      simp [sink_chain, hopen, queue_isEmpty_false hne, hk, hd.1, hd.2]

/-- Sample backlog for the abort witness: keyframe at the head, failure on
the 2nd of the 5 flushed frames. -/
def w2Queue : List StoredBuffer :=
  [⟨⟨some 10, none, false, 0⟩, 10, true⟩,
   ⟨⟨some 20, none, true, 1⟩, 20, false⟩,
   ⟨⟨some 30, none, true, 2⟩, 30, false⟩,
   ⟨⟨some 40, none, true, 3⟩, 40, false⟩,
   ⟨⟨some 50, none, true, 4⟩, 50, false⟩]

def w2Down : Downstream :=
  fun fr => if fr.payload = 1 then some FlowError.err else none

theorem flush_abort_on_downstream_failure_witness :
    wOpenSettings.«open» = true ∧ w2Queue ≠ [] ∧
      1 < (w2Queue.drop ((findFirstKeyframe w2Queue).getD 0)).length ∧
      ((sink_chain w2Down wOpenSettings ⟨w2Queue⟩ wLive).result
          = Except.error FlowError.err ∧
        (sink_chain w2Down wOpenSettings ⟨w2Queue⟩ wLive).pushed
          = ((w2Queue.drop ((findFirstKeyframe w2Queue).getD 0)).take (1 + 1)).map
              (fun x => x.buffer) ∧
        (sink_chain w2Down wOpenSettings ⟨w2Queue⟩ wLive).state.queue = []) :=
  ⟨rfl, by decide, by decide,
    flush_abort_on_downstream_failure w2Down wOpenSettings ⟨w2Queue⟩ wLive
      FlowError.err 1 rfl (by decide) (by decide) (by decide) (by decide)⟩

theorem sink_chain_debug_indep (down : Downstream) (s : Settings) (st : State)
    (f : Frame) :
    (sink_chain down { s with debug := true } st f).result
        = (sink_chain down { s with debug := false } st f).result ∧
      (sink_chain down { s with debug := true } st f).pushed
        = (sink_chain down { s with debug := false } st f).pushed ∧
      (sink_chain down { s with debug := true } st f).state
        = (sink_chain down { s with debug := false } st f).state := by
  cases ho : s.«open» with
  | false => refine ⟨?_, ?_, ?_⟩ <;> simp [sink_chain, ho]
  | true =>
    by_cases hq : st.queue = []
    · cases hd : down f <;> refine ⟨?_, ?_, ?_⟩ <;> simp [sink_chain, ho, hq, hd]
    · cases hk : findFirstKeyframe st.queue with
      | some i =>
        obtain ⟨he, hp⟩ := dumpLoop_debug_indep down (st.queue.drop i)
        cases herr : (dumpLoop down false (st.queue.drop i)).err with
        | some e =>
          have he2 : (dumpLoop down true (st.queue.drop i)).err = some e :=
            he.trans herr
          refine ⟨?_, ?_, ?_⟩ <;>
            simp [sink_chain, ho, queue_isEmpty_false hq, hk, herr, he2, hp]
        | none =>
          have he2 : (dumpLoop down true (st.queue.drop i)).err = none :=
            he.trans herr
          cases hd : down f <;> refine ⟨?_, ?_, ?_⟩ <;>
            simp [sink_chain, ho, queue_isEmpty_false hq, hk, herr, he2, hp, hd]
      | none =>
        obtain ⟨he, hp⟩ := dumpLoop_debug_indep down (st.queue.drop 0)
        rw [List.drop_zero] at he hp
        cases herr : (dumpLoop down false st.queue).err with
        | some e =>
          have he2 : (dumpLoop down true st.queue).err = some e := he.trans herr
          refine ⟨?_, ?_, ?_⟩ <;>
            simp [sink_chain, ho, queue_isEmpty_false hq, hk, herr, he2, hp]
        | none =>
          have he2 : (dumpLoop down true st.queue).err = none := he.trans herr
          cases hd : down f <;> refine ⟨?_, ?_, ?_⟩ <;>
            simp [sink_chain, ho, queue_isEmpty_false hq, hk, herr, he2, hp, hd]

theorem run_frames_debug_indep (down : Downstream) (s : Settings) :
    ∀ (fs : List Frame) (st : State),
      run_frames down { s with debug := true } st fs
        = run_frames down { s with debug := false } st fs := by
  intro fs
  induction fs with
  | nil => intro st; rfl
  | cons f fs ih =>
    intro st
    rw [run_frames, run_frames, (sink_chain_debug_indep down s st f).2.2, ih]

/-- C9: the `debug` setting gates log emission only: with everything else
fixed, a call (and any arrival sequence) behaves identically under
`debug = true` and `debug = false` in its return value, the buffers pushed
downstream, and the backlog state. -/
theorem debug_no_behavioral_effect (down : Downstream) (s : Settings)
    (st : State) (f : Frame) :
    (sink_chain down { s with debug := true } st f).result
        = (sink_chain down { s with debug := false } st f).result ∧
      (sink_chain down { s with debug := true } st f).pushed
        = (sink_chain down { s with debug := false } st f).pushed ∧
      (sink_chain down { s with debug := true } st f).state
        = (sink_chain down { s with debug := false } st f).state ∧
      ∀ fs : List Frame,
        run_frames down { s with debug := true } st fs
          = run_frames down { s with debug := false } st fs := by
  obtain ⟨h1, h2, h3⟩ := sink_chain_debug_indep down s st f
  exact ⟨h1, h2, h3, fun fs => run_frames_debug_indep down s fs st⟩

theorem run_closed_bound (down : Downstream) (s : Settings)
    (hclosed : s.«open» = false) :
    ∀ (fs : List Frame) (st : State),
      List.Pairwise (fun a b => frameTs a ≤ frameTs b) fs →
      List.Pairwise tsLE st.queue →
      (∀ E ∈ st.queue, ∀ g ∈ fs, E.timestamp ≤ frameTs g) →
      ∀ hne : fs ≠ [], ∀ E ∈ (run_frames down s st fs).queue,
        frameTs (fs.getLast hne) - E.timestamp ≤ msToNs s.max_history := by
  intro fs
  induction fs with
  | nil => intro st _ _ _ hne; exact absurd rfl hne
  | cons f fs ih =>
    intro st hmono hqsort hcompat hne E hE
    have hst' : (sink_chain down s st f).state.queue
        = prune (msToNs s.max_history) (frameTs f) (st.queue ++ [mkStored f]) :=
      (sink_chain_closed down s st f hclosed).2.1
    have hsort1 : List.Pairwise tsLE (st.queue ++ [mkStored f]) := by
      rw [List.pairwise_append]
      refine ⟨hqsort, List.pairwise_singleton _ _, ?_⟩
      intro a ha b hb
      rcases List.mem_singleton.mp hb with rfl
      exact hcompat a ha f (List.mem_cons_self f fs)
    cases fs with
    | nil =>
      have hrun : (run_frames down s st [f]).queue
          = (sink_chain down s st f).state.queue := rfl
      rw [hrun, hst'] at hE
      exact prune_bound (msToNs s.max_history) (frameTs f)
        (st.queue ++ [mkStored f]) hsort1 E hE
    | cons g gs =>
      have hrun : run_frames down s st (f :: g :: gs)
          = run_frames down s (sink_chain down s st f).state (g :: gs) := rfl
      rw [hrun] at hE
      have hsort' : List.Pairwise tsLE (sink_chain down s st f).state.queue := by
        rw [hst']; exact prune_pairwise hsort1
      have hcompat' : ∀ E2 ∈ (sink_chain down s st f).state.queue,
          ∀ h ∈ g :: gs, E2.timestamp ≤ frameTs h := by
        intro E2 hE2 h hh
        have hmem : E2 ∈ st.queue ++ [mkStored f] := by
          rw [hst'] at hE2
          exact prune_mem hE2
        rcases List.mem_append.mp hmem with hmem2 | hmem2
        · exact hcompat E2 hmem2 h (List.mem_cons_of_mem f hh)
        · rcases List.mem_singleton.mp hmem2 with rfl
          exact (List.pairwise_cons.mp hmono).1 h hh
      have hlast : (f :: g :: gs).getLast hne
          = (g :: gs).getLast (List.cons_ne_nil g gs) :=
        List.getLast_cons (List.cons_ne_nil g gs)
      rw [hlast]
      exact ih (sink_chain down s st f).state
        (List.Pairwise.of_cons hmono) hsort' hcompat'
        (List.cons_ne_nil g gs) E hE

/-- C4 is false as stated: with `max-history = 10` ms, closed-mode arrivals
with timestamps 1000000000 ns, 0 ns, 1005000000 ns leave the middle entry
(timestamp 0) in the backlog, even though it is neither the sole nor the
newest entry and `latest_timestamp - 0` far exceeds the window: the pruning
loop stops at the head entry (timestamp 1000000000, within the window) and
never reaches it. -/
theorem pruning_bound_counterexample :
    ((run_frames (fun _ => none) ⟨false, 10, false⟩ ⟨[]⟩
        [⟨some 1000000000, none, true, 1⟩, ⟨some 0, none, true, 2⟩,
         ⟨some 1005000000, none, true, 3⟩]).queue.map
        (fun E => E.timestamp))
      = [1000000000, 0, 1005000000] ∧
      msToNs 10 < 1005000000 - 0 := by
  refine ⟨?_, by decide⟩
  rfl

/-- C4 (amended): after a sequence of closed-mode arrivals whose derived
timestamps are non-decreasing (the spec's normal-operation invariant),
every entry remaining in the backlog is within `max_history` of the
timestamp of the most recently appended frame. -/
theorem pruning_bound_monotone (down : Downstream) (s : Settings)
    (fs : List Frame) (hclosed : s.«open» = false)
    (hmono : List.Pairwise (fun a b => frameTs a ≤ frameTs b) fs)
    (hne : fs ≠ []) :
    ∀ E ∈ (run_frames down s ⟨[]⟩ fs).queue,
      frameTs (fs.getLast hne) - E.timestamp ≤ msToNs s.max_history :=
  run_closed_bound down s hclosed fs ⟨[]⟩ hmono List.Pairwise.nil
    (fun E hE => absurd hE (List.not_mem_nil E)) hne

def wMonoFrames : List Frame :=
  [⟨some 0, none, false, 0⟩, ⟨some 500000, none, true, 1⟩,
   ⟨some 3000000, none, true, 2⟩]

theorem pruning_bound_monotone_witness :
    (⟨false, 1, false⟩ : Settings).«open» = false ∧
      List.Pairwise (fun a b => frameTs a ≤ frameTs b) wMonoFrames ∧
      wMonoFrames ≠ [] ∧
      ∀ E ∈ (run_frames (fun _ => none) ⟨false, 1, false⟩ ⟨[]⟩ wMonoFrames).queue,
        frameTs (wMonoFrames.getLast (by decide)) - E.timestamp
          ≤ msToNs (⟨false, 1, false⟩ : Settings).max_history :=
  ⟨rfl, by decide, by decide,
    pruning_bound_monotone (fun _ => none) ⟨false, 1, false⟩ wMonoFrames rfl
      (by decide) (by decide)⟩
